import Mathlib

/-!
Verification of the Unscented Kalman Filter in `src/ukf.cpp`
(CarND-Unscented-Kalman-Filter-Project).

The numeric code is embedded over the real numbers: every member function of
the `UKF` class becomes a Lean function on an explicit `UKF` state record.
Machine floating point is idealized to `ℝ`; `Eigen` vectors and matrices
become functions out of `Fin n`.
-/

open Matrix

noncomputable section

/-! ## Constants fixed in the constructor `UKF::UKF()` (ukf.cpp lines 14-91) -/

/-- State dimension `n_x_ = 5`. -/
def n_x_ : ℕ := 5

/-- Augmented dimension `n_aug_ = 7`. -/
def n_aug_ : ℕ := 7

/-- Number of sigma points `n_sig_ = 2 * n_aug_ + 1 = 15`. -/
def n_sig_ : ℕ := 15

/-- Spreading parameter `lambda_ = 3 - n_aug_`. -/
def lambda_ : ℝ := 3 - (n_aug_ : ℝ)

/-- Process noise standard deviation, longitudinal acceleration: `std_a_ = 0.25`. -/
def std_a_ : ℝ := 0.25

/-- Process noise standard deviation, yaw acceleration: `std_yawdd_ = 20.0/100.0*M_PI`. -/
def std_yawdd_ : ℝ := 20 / 100 * Real.pi

/-- Laser noise standard deviation, x position: `std_laspx_ = 0.15`. -/
def std_laspx_ : ℝ := 0.15

/-- Laser noise standard deviation, y position: `std_laspy_ = 0.15`. -/
def std_laspy_ : ℝ := 0.15

/-- Radar noise standard deviation, radius: `std_radr_ = 0.3`. -/
def std_radr_ : ℝ := 0.3

/-- Radar noise standard deviation, angle: `std_radphi_ = 0.03`. -/
def std_radphi_ : ℝ := 0.03

/-- Radar noise standard deviation, radius rate: `std_radrd_ = 0.3`. -/
def std_radrd_ : ℝ := 0.3

/-- Laser measurement noise covariance `R_lidar_` (ukf.cpp lines 71-73). -/
def R_lidar_ : Matrix (Fin 2) (Fin 2) ℝ :=
  Matrix.of ![![std_laspx_ * std_laspx_, 0], ![0, std_laspy_ * std_laspy_]]

/-- Radar measurement noise covariance `R_radar_` (ukf.cpp lines 86-90). -/
def R_radar_ : Matrix (Fin 3) (Fin 3) ℝ :=
  Matrix.of ![![std_radr_ * std_radr_, 0, 0],
              ![0, std_radphi_ * std_radphi_, 0],
              ![0, 0, std_radrd_ * std_radrd_]]

/-! ## Data model -/

/-- Sensor type of a measurement package (`MeasurementPackage::LASER` / `RADAR`). -/
inductive SensorType
  | LASER
  | RADAR
deriving DecidableEq

/-- A measurement package: sensor type, integer timestamp in microseconds, and
raw values (2 used by laser, 3 by radar). -/
structure MeasurementPackage where
  sensor_type_ : SensorType
  timestamp_ : ℤ
  raw_measurements_ : Fin 3 → ℝ

/-- The mutable members of the `UKF` class.  The field `inited_` models the
member `is_initialized_` of the source. -/
structure UKF where
  inited_ : Bool
  x_ : Fin 5 → ℝ
  P_ : Matrix (Fin 5) (Fin 5) ℝ
  time_us_ : ℤ
  NIS_radar_ : ℝ
  NIS_laser_ : ℝ
  use_laser_ : Bool
  use_radar_ : Bool
  Xsig_pred_ : Matrix (Fin 5) (Fin 15) ℝ
  weights_ : Fin 15 → ℝ

/-- The state produced by the constructor `UKF::UKF()`: not yet bootstrapped,
`x_` zero, `P_` the 5x5 identity, both sensors enabled, NIS values zero.
`Xsig_pred_` and `weights_` are default-constructed (empty) in C++ until the
first prediction; they are modelled as zero. -/
def UKF.ctor : UKF :=
  { inited_ := false
    x_ := fun _ => 0
    P_ := 1
    time_us_ := 0
    NIS_radar_ := 0
    NIS_laser_ := 0
    use_laser_ := true
    use_radar_ := true
    Xsig_pred_ := fun _ _ => 0
    weights_ := fun _ => 0 }

/-! ## Cholesky factorization (`P_aug.llt().matrixL()`) -/

/-- Entry-level lower Cholesky factorization with explicit fuel, the standard
algorithm performed by Eigen's `LLT`: `L(j,j) = sqrt(A(j,j) - sum L(j,k)^2)`,
`L(i,j) = (A(i,j) - sum L(i,k)*L(j,k)) / L(j,j)` for `i > j`, zero above the
diagonal.  On a pivot that is not positive the C++ computation takes the square
root of a negative number (IEEE NaN); here `Real.sqrt` of a negative is `0`, an
explicit junk value — the source checks nothing in either case. -/
def cholAux (A : Fin 7 → Fin 7 → ℝ) : ℕ → ℕ → ℕ → ℝ
  | 0, _, _ => 0
  | fuel + 1, i, j =>
    if hi : i < 7 then
      if hj : j < 7 then
        if i < j then 0
        else if i = j then
          Real.sqrt (A ⟨i, hi⟩ ⟨j, hj⟩ - ∑ k ∈ Finset.range j, cholAux A fuel j k ^ 2)
        else
          (A ⟨i, hi⟩ ⟨j, hj⟩ - ∑ k ∈ Finset.range j, cholAux A fuel i k * cholAux A fuel j k) /
            cholAux A fuel j j
      else 0
    else 0

/-- Lower Cholesky factor of a 7x7 matrix (fuel 15 is more than the maximal
recursion depth needed for dimension 7). -/
def cholOf (A : Matrix (Fin 7) (Fin 7) ℝ) : Matrix (Fin 7) (Fin 7) ℝ :=
  Matrix.of fun i j => cholAux (fun a b => A a b) 15 i.val j.val

/-! ## `UKF::AugmentedSigmaPoints` (ukf.cpp lines 210-249) -/

/-- Augmented mean state `x_aug`: the state vector extended with the two
zero-mean noise components (ukf.cpp lines 222-224). -/
def x_augOf (u : UKF) : Fin 7 → ℝ := fun i =>
  if h : i.val < 5 then u.x_ ⟨i.val, h⟩ else 0

/-- Augmented covariance `P_aug`: `P_` in the top-left 5x5 block,
`std_a_^2` and `std_yawdd_^2` at positions (5,5) and (6,6), zero elsewhere
(ukf.cpp lines 227-230). -/
def P_augOf (u : UKF) : Matrix (Fin 7) (Fin 7) ℝ :=
  Matrix.of fun i j =>
    if hi : i.val < 5 then
      if hj : j.val < 5 then u.P_ ⟨i.val, hi⟩ ⟨j.val, hj⟩ else 0
    else if i = j then
      if i.val = 5 then std_a_ * std_a_ else std_yawdd_ * std_yawdd_
    else 0

/-- `UKF::AugmentedSigmaPoints`: column 0 is the augmented mean, column `i+1`
is `x_aug + sqrt(lambda_+n_aug_) * L.col(i)` and column `i+1+n_aug_` is
`x_aug - sqrt(lambda_+n_aug_) * L.col(i)`, with `L` the lower Cholesky factor
of `P_aug` (ukf.cpp lines 233-241).  The loop writes each column exactly once,
so it is embedded as a direct definition by column index. -/
def AugmentedSigmaPoints (u : UKF) : Matrix (Fin 7) (Fin 15) ℝ :=
  let L := cholOf (P_augOf u)
  Matrix.of fun r c =>
    if h0 : c.val = 0 then x_augOf u r
    else if h7 : c.val ≤ 7 then
      x_augOf u r + Real.sqrt (lambda_ + (n_aug_ : ℝ)) * L r ⟨c.val - 1, by omega⟩
    else
      x_augOf u r - Real.sqrt (lambda_ + (n_aug_ : ℝ)) *
        L r ⟨c.val - 8, by have := c.isLt; omega⟩

/-! ## `UKF::SigmaPointPrediction` (ukf.cpp lines 256-312) -/

/-- The CTRV process model applied to one augmented sigma point
(ukf.cpp lines 264-303): if `|yawd| > 0.001` use the closed-form arc
displacement, otherwise the straight-line degenerate limit; then add the
process-noise contributions. -/
def ctrvPropagate (pt : Fin 7 → ℝ) (dt : ℝ) : Fin 5 → ℝ :=
  let p_x := pt 0
  let p_y := pt 1
  let v := pt 2
  let yaw := pt 3
  let yawd := pt 4
  let nu_a := pt 5
  let nu_yawdd := pt 6
  let pxy : ℝ × ℝ :=
    if |yawd| > 0.001 then
      (p_x + v / yawd * (Real.sin (yaw + yawd * dt) - Real.sin yaw),
       p_y + v / yawd * (Real.cos yaw - Real.cos (yaw + yawd * dt)))
    else
      (p_x + v * dt * Real.cos yaw, p_y + v * dt * Real.sin yaw)
  ![pxy.1 + 0.5 * nu_a * dt * dt * Real.cos yaw,
    pxy.2 + 0.5 * nu_a * dt * dt * Real.sin yaw,
    v + nu_a * dt,
    yaw + yawd * dt + 0.5 * nu_yawdd * dt * dt,
    yawd + nu_yawdd * dt]

/-- `UKF::SigmaPointPrediction`: propagate every augmented sigma point column
through the CTRV model. -/
def SigmaPointPrediction (Xsig_aug : Matrix (Fin 7) (Fin 15) ℝ) (dt : ℝ) :
    Matrix (Fin 5) (Fin 15) ℝ :=
  Matrix.of fun r c => ctrvPropagate (fun k => Xsig_aug k c) dt r

/-! ## `UKF::PredictMeanAndCovariance` (ukf.cpp lines 321-365) -/

/-- Modelled from the spec: `Tools::NormalizeAngle` lives in `tools.cpp`,
which is not among the sources; the spec states that the angle-wrap maps any
input into the interval `(-pi, pi]` (and is hence idempotent).  This closed
form subtracts the unique multiple of `2*pi` landing in that interval. -/
def NormalizeAngle (θ : ℝ) : ℝ := θ - 2 * Real.pi * ⌈θ / (2 * Real.pi) - 1 / 2⌉

/-- The weights vector set at ukf.cpp lines 332-335: fill with
`0.5/(lambda_+n_aug_)`, then overwrite index 0 with `lambda_/(lambda_+n_aug_)`. -/
def weightsVec : Fin 15 → ℝ :=
  Function.update (fun _ => 0.5 / (lambda_ + (n_aug_ : ℝ))) 0 (lambda_ / (lambda_ + (n_aug_ : ℝ)))

/-- The state-space deviation of predicted sigma point `i` from the mean, with
the heading component (index 3) angle-normalized (ukf.cpp lines 347-350). -/
def stateDiff (Xp : Matrix (Fin 5) (Fin 15) ℝ) (x : Fin 5 → ℝ) (i : Fin 15) : Fin 5 → ℝ :=
  let xd := fun k => Xp k i - x k
  Function.update xd 3 (NormalizeAngle (xd 3))

/-- `UKF::PredictMeanAndCovariance`: returns predicted state mean, predicted
covariance, and the weights vector (the C++ writes all three through output
pointers). -/
def PredictMeanAndCovariance (Xp : Matrix (Fin 5) (Fin 15) ℝ) :
    (Fin 5 → ℝ) × Matrix (Fin 5) (Fin 5) ℝ × (Fin 15 → ℝ) :=
  let w := weightsVec
  let x := Xp.mulVec w
  let P := ∑ i : Fin 15, w i • Matrix.vecMulVec (stateDiff Xp x i) (stateDiff Xp x i)
  (x, P, w)

/-- `UKF::Prediction` (ukf.cpp lines 189-200): generate augmented sigma
points, propagate them, recombine into mean/covariance, store the sigma
points and weights in the filter state. -/
def Prediction (u : UKF) (dt : ℝ) : UKF :=
  let Xsig_aug := AugmentedSigmaPoints u
  let Xp := SigmaPointPrediction Xsig_aug dt
  let r := PredictMeanAndCovariance Xp
  { u with Xsig_pred_ := Xp, x_ := r.1, P_ := r.2.1, weights_ := r.2.2 }

/-! ## `UKF::UpdateLidar` (ukf.cpp lines 371-463) -/

/-- Lidar measurement sigma points: the top two rows (px, py) of the predicted
sigma points (ukf.cpp line 389). -/
def lidarZsig (u : UKF) : Matrix (Fin 2) (Fin 15) ℝ :=
  Matrix.of fun r c => u.Xsig_pred_ ⟨r.val, by have := r.isLt; omega⟩ c

/-- Lidar mean predicted measurement (ukf.cpp lines 394-397). -/
def lidar_zpred (u : UKF) : Fin 2 → ℝ :=
  fun r => ∑ i : Fin 15, u.weights_ i * lidarZsig u r i

/-- Residual of lidar measurement sigma point `i` from the predicted mean. -/
def lidar_zdiff (u : UKF) (i : Fin 15) : Fin 2 → ℝ :=
  fun r => lidarZsig u r i - lidar_zpred u r

/-- Lidar innovation covariance `S` (ukf.cpp lines 400-410). -/
def lidarS (u : UKF) : Matrix (Fin 2) (Fin 2) ℝ :=
  (∑ i : Fin 15, u.weights_ i • Matrix.vecMulVec (lidar_zdiff u i) (lidar_zdiff u i)) + R_lidar_

/-- `UKF::UpdateLidar`: Kalman update of state and covariance from a laser
measurement, and computation of the laser NIS (ukf.cpp lines 371-463). -/
def UpdateLidar (u : UKF) (m : MeasurementPackage) : UKF :=
  let z : Fin 2 → ℝ := fun i => m.raw_measurements_ ⟨i.val, by have := i.isLt; omega⟩
  let S := lidarS u
  let Tc : Matrix (Fin 5) (Fin 2) ℝ :=
    ∑ i : Fin 15, u.weights_ i • Matrix.vecMulVec (stateDiff u.Xsig_pred_ u.x_ i) (lidar_zdiff u i)
  let K := Tc * S⁻¹
  let z_diff : Fin 2 → ℝ := fun r => z r - lidar_zpred u r
  { u with
    x_ := fun k => u.x_ k + K.mulVec z_diff k
    P_ := u.P_ - K * S * K.transpose
    NIS_laser_ := z_diff ⬝ᵥ (S⁻¹).mulVec z_diff }

/-! ## `UKF::UpdateRadar` (ukf.cpp lines 469-590) -/

/-- Machine epsilon for IEEE double, `numeric_limits&lt;double&gt;::epsilon() = 2^-52`. -/
def dblEpsilon : ℝ := 1 / 2 ^ 52

/-- The near-origin substitution in the radar measurement model (ukf.cpp lines
499-503): when both coordinates have absolute value below machine epsilon,
replace both by machine epsilon before bearing and range-rate are computed. -/
def radarSubst (p_x p_y : ℝ) : ℝ × ℝ :=
  if |p_x| < dblEpsilon ∧ |p_y| < dblEpsilon then (dblEpsilon, dblEpsilon) else (p_x, p_y)

/-- Two-argument arctangent, the value of C `atan2(y, x)`, via the complex
argument of `x + y*I`. -/
def atan2 (y x : ℝ) : ℝ := Complex.arg ⟨x, y⟩

/-- Radar measurement sigma points (ukf.cpp lines 485-506): range from the raw
coordinates, bearing and range-rate from the (possibly substituted)
coordinates. -/
def radarZsig (u : UKF) : Matrix (Fin 3) (Fin 15) ℝ :=
  Matrix.of fun r c =>
    let p_x := u.Xsig_pred_ 0 c
    let p_y := u.Xsig_pred_ 1 c
    let v := u.Xsig_pred_ 2 c
    let yaw := u.Xsig_pred_ 3 c
    let v1 := Real.cos yaw * v
    let v2 := Real.sin yaw * v
    let q := radarSubst p_x p_y
    ![Real.sqrt (p_x * p_x + p_y * p_y),
      atan2 q.2 q.1,
      (q.1 * v1 + q.2 * v2) / Real.sqrt (q.1 * q.1 + q.2 * q.2)] r

/-- Radar mean predicted measurement (ukf.cpp lines 511-514). -/
def radar_zpred (u : UKF) : Fin 3 → ℝ :=
  fun r => ∑ i : Fin 15, u.weights_ i * radarZsig u r i

/-- Residual of radar measurement sigma point `i` from the predicted mean,
with the bearing component (index 1) angle-normalized (ukf.cpp lines 521-524). -/
def radar_zdiff (u : UKF) (i : Fin 15) : Fin 3 → ℝ :=
  let d := fun r => radarZsig u r i - radar_zpred u r
  Function.update d 1 (NormalizeAngle (d 1))

/-- Radar innovation covariance `S` (ukf.cpp lines 518-531). -/
def radarS (u : UKF) : Matrix (Fin 3) (Fin 3) ℝ :=
  (∑ i : Fin 15, u.weights_ i • Matrix.vecMulVec (radar_zdiff u i) (radar_zdiff u i)) + R_radar_

/-- `UKF::UpdateRadar`: Kalman update of state and covariance from a radar
measurement, and computation of the radar NIS (ukf.cpp lines 469-590). -/
def UpdateRadar (u : UKF) (m : MeasurementPackage) : UKF :=
  let z : Fin 3 → ℝ := m.raw_measurements_
  let S := radarS u
  let Tc : Matrix (Fin 5) (Fin 3) ℝ :=
    ∑ i : Fin 15, u.weights_ i • Matrix.vecMulVec (stateDiff u.Xsig_pred_ u.x_ i) (radar_zdiff u i)
  let K := Tc * S⁻¹
  let zd0 : Fin 3 → ℝ := fun r => z r - radar_zpred u r
  let z_diff := Function.update zd0 1 (NormalizeAngle (zd0 1))
  { u with
    x_ := fun k => u.x_ k + K.mulVec z_diff k
    P_ := u.P_ - K * S * K.transpose
    NIS_radar_ := z_diff ⬝ᵥ (S⁻¹).mulVec z_diff }

/-! ## `UKF::ProcessMeasurement` (ukf.cpp lines 99-182) -/

/-- `UKF::ProcessMeasurement`.  Uninitialized branch (lines 111-142): bootstrap
from the first measurement of an enabled type (radar first, then laser), and in
every sub-case overwrite the stored timestamp (line 135).  Initialized branch
(lines 144-177): compute `delta_t` in seconds, store the new timestamp, run
`Prediction`, then run the update matching an enabled sensor type. -/
def ProcessMeasurement (u : UKF) (m : MeasurementPackage) : UKF :=
  if u.inited_ = false then
    let u' :=
      if u.use_radar_ = true ∧ m.sensor_type_ = SensorType.RADAR then
        let ro := m.raw_measurements_ 0
        let phi := m.raw_measurements_ 1
        let ro_dot := m.raw_measurements_ 2
        { u with x_ := ![ro * Real.cos phi, ro * Real.sin phi, ro_dot, 0, 0], inited_ := true }
      else if u.use_laser_ = true ∧ m.sensor_type_ = SensorType.LASER then
        { u with x_ := ![m.raw_measurements_ 0, m.raw_measurements_ 1, 0, 0, 0], inited_ := true }
      else u
    { u' with time_us_ := m.timestamp_ }
  else
    let dt : ℝ := ((m.timestamp_ - u.time_us_ : ℤ) : ℝ) / 1000000
    let u1 := Prediction { u with time_us_ := m.timestamp_ } dt
    if u1.use_radar_ = true ∧ m.sensor_type_ = SensorType.RADAR then UpdateRadar u1 m
    else if u1.use_laser_ = true ∧ m.sensor_type_ = SensorType.LASER then UpdateLidar u1 m
    else u1

/-- Observer of the `delta_t` a call to `ProcessMeasurement` would compute:
`none` in the uninitialized branch (no elapsed time is computed there), and the
value from ukf.cpp line 154 otherwise. -/
def nextDt (u : UKF) (m : MeasurementPackage) : Option ℝ :=
  if u.inited_ = false then none
  else some (((m.timestamp_ - u.time_us_ : ℤ) : ℝ) / 1000000)

/-! ## Concrete instances used by the scenario theorems -/

/-- Scenario A bootstrap measurement: laser reading px = 1.0, py = 0.5. -/
def mA : MeasurementPackage := ⟨SensorType.LASER, 77, ![1, 0.5, 0]⟩

/-- Scenario B bootstrap measurement: radar reading range 5, bearing 0,
range-rate 2. -/
def mB : MeasurementPackage := ⟨SensorType.RADAR, 9, ![5, 0, 2]⟩

/-- A Ready filter with the laser toggle off (all other members as
constructed). -/
def uNoLaser : UKF := { UKF.ctor with inited_ := true, use_laser_ := false }

/-- A laser measurement arriving 4 seconds (4000000 microseconds) after the
stored timestamp of `uNoLaser`. -/
def mD : MeasurementPackage := ⟨SensorType.LASER, 4000000, ![0, 0, 0]⟩

/-- A filter whose state covariance is minus the identity, so that the
augmented covariance is not positive definite. -/
def uBadP : UKF := { UKF.ctor with P_ := -1 }

/-- A Ready filter with the standard weights and zero predicted sigma points,
used to witness the NIS sign property. -/
def uReadyW : UKF := { UKF.ctor with inited_ := true, weights_ := weightsVec }

/-- An arbitrary laser measurement. -/
def mW : MeasurementPackage := ⟨SensorType.LASER, 0, ![0, 0, 0]⟩

/-- An Uninitialized filter with the laser toggle off. -/
def uNoLaser0 : UKF := { UKF.ctor with use_laser_ := false }

/-- A laser measurement at timestamp 1000000, ignored by `uNoLaser0`. -/
def mIgn : MeasurementPackage := ⟨SensorType.LASER, 1000000, ![3, 4, 0]⟩

/-- A radar measurement at timestamp 2000000, accepted by `uNoLaser0`. -/
def mAcc : MeasurementPackage := ⟨SensorType.RADAR, 2000000, ![1, 0, 0]⟩

/-- A radar measurement at timestamp 3000000, accepted after `mAcc`. -/
def mAcc2 : MeasurementPackage := ⟨SensorType.RADAR, 3000000, ![1, 0, 0]⟩

/-- Scenario C zero-noise augmented sigma point: state (0,0,1,0,0), zero
heading-rate, zero noise components. -/
def ptC : Fin 7 → ℝ := ![0, 0, 1, 0, 0, 0, 0]

/-! ## Helper lemmas -/

lemma weightsVec_succ (i : Fin 14) :
    weightsVec i.succ = 0.5 / (lambda_ + (n_aug_ : ℝ)) := by
  simp [weightsVec, Function.update_noteq (Fin.succ_ne_zero i)]

lemma weightsVec_sum : ∑ i : Fin 15, weightsVec i = 1 := by
  simp [Fin.sum_univ_succ, weightsVec, Function.update_apply, lambda_, n_aug_,
    Fin.succ_ne_zero]
  norm_num

lemma NormalizeAngle_zero : NormalizeAngle 0 = 0 := by
  norm_num [NormalizeAngle]

lemma boot_laser (u : UKF) (m : MeasurementPackage) (h1 : u.inited_ = false)
    (h2 : u.use_laser_ = true) (h3 : m.sensor_type_ = SensorType.LASER) :
    ProcessMeasurement u m =
      { u with
        x_ := ![m.raw_measurements_ 0, m.raw_measurements_ 1, 0, 0, 0]
        inited_ := true
        time_us_ := m.timestamp_ } := by
  simp [ProcessMeasurement, h1, h2, h3]

lemma boot_radar (u : UKF) (m : MeasurementPackage) (h1 : u.inited_ = false)
    (h2 : u.use_radar_ = true) (h3 : m.sensor_type_ = SensorType.RADAR) :
    ProcessMeasurement u m =
      { u with
        x_ := ![m.raw_measurements_ 0 * Real.cos (m.raw_measurements_ 1),
                m.raw_measurements_ 0 * Real.sin (m.raw_measurements_ 1),
                m.raw_measurements_ 2, 0, 0]
        inited_ := true
        time_us_ := m.timestamp_ } := by
  simp [ProcessMeasurement, h1, h2, h3]

lemma boot_skip (u : UKF) (m : MeasurementPackage) (h1 : u.inited_ = false)
    (h2 : ¬(u.use_radar_ = true ∧ m.sensor_type_ = SensorType.RADAR))
    (h3 : ¬(u.use_laser_ = true ∧ m.sensor_type_ = SensorType.LASER)) :
    ProcessMeasurement u m = { u with time_us_ := m.timestamp_ } := by
  simp [ProcessMeasurement, h1, h2, h3]

lemma Prediction_use_radar (u : UKF) (dt : ℝ) :
    (Prediction u dt).use_radar_ = u.use_radar_ := rfl

lemma Prediction_use_laser (u : UKF) (dt : ℝ) :
    (Prediction u dt).use_laser_ = u.use_laser_ := rfl

lemma Prediction_NIS_laser (u : UKF) (dt : ℝ) :
    (Prediction u dt).NIS_laser_ = u.NIS_laser_ := rfl

lemma Prediction_NIS_radar (u : UKF) (dt : ℝ) :
    (Prediction u dt).NIS_radar_ = u.NIS_radar_ := rfl

lemma ready_skip (u : UKF) (m : MeasurementPackage) (h1 : u.inited_ = true)
    (h2 : ¬(u.use_radar_ = true ∧ m.sensor_type_ = SensorType.RADAR))
    (h3 : ¬(u.use_laser_ = true ∧ m.sensor_type_ = SensorType.LASER)) :
    ProcessMeasurement u m =
      Prediction { u with time_us_ := m.timestamp_ }
        (((m.timestamp_ - u.time_us_ : ℤ) : ℝ) / 1000000) := by
  simp [ProcessMeasurement, h1, Prediction_use_radar, Prediction_use_laser, h2, h3]

/-! ## Claim theorems -/

/-- C2: On the first measurement of an enabled sensor type (either type),
`ProcessMeasurement` initializes position directly from the measurement
(polar-to-Cartesian conversion for radar), sets velocity, heading and
heading-rate to zero, leaves the covariance untouched (hence equal to the 5x5
identity set by the constructor), records the timestamp, and performs no
prediction or update on that call; in particular a laser bootstrap with
px = 1.0, py = 0.5 from the constructed filter yields state (1, 0.5, 0, 0, 0)
and covariance identity(5). -/
theorem c2_bootstrap_init :
    (∀ (u : UKF) (m : MeasurementPackage), u.inited_ = false → u.use_laser_ = true →
      m.sensor_type_ = SensorType.LASER →
      ProcessMeasurement u m =
        { u with
          x_ := ![m.raw_measurements_ 0, m.raw_measurements_ 1, 0, 0, 0]
          inited_ := true
          time_us_ := m.timestamp_ }) ∧
    (∀ (u : UKF) (m : MeasurementPackage), u.inited_ = false → u.use_radar_ = true →
      m.sensor_type_ = SensorType.RADAR →
      ProcessMeasurement u m =
        { u with
          x_ := ![m.raw_measurements_ 0 * Real.cos (m.raw_measurements_ 1),
                  m.raw_measurements_ 0 * Real.sin (m.raw_measurements_ 1),
                  m.raw_measurements_ 2, 0, 0]
          inited_ := true
          time_us_ := m.timestamp_ }) ∧
    (ProcessMeasurement UKF.ctor mA).x_ = ![1, 0.5, 0, 0, 0] ∧
    (ProcessMeasurement UKF.ctor mA).P_ = 1 := by
  refine ⟨boot_laser, boot_radar, ?_, ?_⟩
  · rw [boot_laser UKF.ctor mA rfl rfl rfl]
    rfl
  · rw [boot_laser UKF.ctor mA rfl rfl rfl]
    rfl

/-- Witness for C2: the laser branch applied to the freshly constructed filter
and the Scenario A measurement. -/
theorem c2_bootstrap_init_witness :
    ProcessMeasurement UKF.ctor mA =
      { UKF.ctor with
        x_ := ![mA.raw_measurements_ 0, mA.raw_measurements_ 1, 0, 0, 0]
        inited_ := true
        time_us_ := mA.timestamp_ } :=
  c2_bootstrap_init.1 UKF.ctor mA rfl rfl rfl

/-- C3: Bootstrapping from a radar measurement with range 5, bearing 0,
range-rate 2 produces the state vector (5, 0, 2, 0, 0): the speed component is
initialized to the measured range-rate. -/
theorem c3_radar_bootstrap :
    (ProcessMeasurement UKF.ctor mB).x_ = ![5, 0, 2, 0, 0] := by
  rw [boot_radar UKF.ctor mB rfl rfl rfl]
  show ![(5 : ℝ) * Real.cos 0, 5 * Real.sin 0, 2, 0, 0] = ![5, 0, 2, 0, 0]
  funext i
  fin_cases i <;> simp

/-- C5: For an augmented sigma point with zero acceleration noise, the motion
model uses the straight-line degenerate limit when the heading-rate satisfies
the threshold `|yawd| &le; 0.001` and the closed-form arc displacement divided
by the heading-rate when `|yawd| > 0.001`; propagating the zero-noise sigma
point of state (0,0,1,0,0) with heading-rate 0 over one second yields predicted
position (1, 0). -/
theorem c5_motion_model_branches :
    (∀ (pt : Fin 7 → ℝ) (dt : ℝ), |pt 4| ≤ 0.001 → pt 5 = 0 →
      ctrvPropagate pt dt 0 = pt 0 + pt 2 * dt * Real.cos (pt 3) ∧
      ctrvPropagate pt dt 1 = pt 1 + pt 2 * dt * Real.sin (pt 3)) ∧
    (∀ (pt : Fin 7 → ℝ) (dt : ℝ), 0.001 < |pt 4| → pt 5 = 0 →
      ctrvPropagate pt dt 0 =
        pt 0 + pt 2 / pt 4 * (Real.sin (pt 3 + pt 4 * dt) - Real.sin (pt 3)) ∧
      ctrvPropagate pt dt 1 =
        pt 1 + pt 2 / pt 4 * (Real.cos (pt 3) - Real.cos (pt 3 + pt 4 * dt))) ∧
    ctrvPropagate ptC 1 0 = 1 ∧
    ctrvPropagate ptC 1 1 = 0 := by
  have hzero : ∀ (pt : Fin 7 → ℝ) (dt : ℝ), |pt 4| ≤ 0.001 → pt 5 = 0 →
      ctrvPropagate pt dt 0 = pt 0 + pt 2 * dt * Real.cos (pt 3) ∧
      ctrvPropagate pt dt 1 = pt 1 + pt 2 * dt * Real.sin (pt 3) := by
    intro pt dt h h5
    have hb : ¬(|pt 4| > 0.001) := not_lt.mpr h
    constructor <;> · simp [ctrvPropagate, hb, h5]
  refine ⟨hzero, ?_, ?_, ?_⟩
  · intro pt dt h h5
    have hb : |pt 4| > 0.001 := h
    constructor <;> · simp [ctrvPropagate, hb, h5]
  · have h := (hzero ptC 1 (by norm_num [ptC]) rfl).1
    rw [h]
    show (0 : ℝ) + 1 * 1 * Real.cos 0 = 1
    simp
  · have h := (hzero ptC 1 (by norm_num [ptC]) rfl).2
    rw [h]
    show (0 : ℝ) + 1 * 1 * Real.sin 0 = 0
    simp

/-- Witness for C5: the straight-line branch instantiated at the Scenario C
sigma point with unit time step. -/
theorem c5_motion_model_branches_witness :
    ctrvPropagate ptC 1 0 = ptC 0 + ptC 2 * 1 * Real.cos (ptC 3) ∧
    ctrvPropagate ptC 1 1 = ptC 1 + ptC 2 * 1 * Real.sin (ptC 3) :=
  c5_motion_model_branches.1 ptC 1 (by norm_num [ptC]) rfl

/-- C7: With the filter's parameterization (lambda_ = 3 - n_aug_, n_aug_ = 7)
the weights vector used in every prediction cycle has weight 0 equal to
`lambda_/(lambda_+n_aug_)`, every remaining weight equal to
`1/(2*(lambda_+n_aug_))`, the 15 weights sum to 1, and every call of
`Prediction` stores exactly this vector. -/
theorem c7_weights :
    weightsVec 0 = lambda_ / (lambda_ + (n_aug_ : ℝ)) ∧
    (∀ i : Fin 15, i ≠ 0 → weightsVec i = 1 / (2 * (lambda_ + (n_aug_ : ℝ)))) ∧
    (∑ i : Fin 15, weightsVec i) = 1 ∧
    (∀ (u : UKF) (dt : ℝ), (Prediction u dt).weights_ = weightsVec) := by
  refine ⟨by simp [weightsVec], ?_, weightsVec_sum, fun u dt => rfl⟩
  intro i hi
  rw [weightsVec, Function.update_noteq hi]
  norm_num [lambda_, n_aug_]

/-- Witness for C7: the non-zero-index weight value at index 1 and the weights
stored by a concrete prediction call. -/
theorem c7_weights_witness :
    weightsVec 1 = 1 / (2 * (lambda_ + (n_aug_ : ℝ))) ∧
    (Prediction UKF.ctor 0).weights_ = weightsVec :=
  ⟨c7_weights.2.1 1 (by decide), c7_weights.2.2.2 UKF.ctor 0⟩

/-- C8: In the radar measurement model, whenever both coordinates of a
predicted sigma point are within machine epsilon of zero, both are replaced by
the (positive) machine epsilon before bearing and range-rate are computed; the
coordinate pair actually used is therefore never (0, 0) and the range-rate
denominator is always strictly positive, so `atan2(0,0)` is never evaluated
and the division never has a zero denominator. -/
theorem c8_radar_epsilon_guard :
    (∀ p_x p_y : ℝ, |p_x| < dblEpsilon → |p_y| < dblEpsilon →
      radarSubst p_x p_y = (dblEpsilon, dblEpsilon)) ∧
    0 < dblEpsilon ∧
    (∀ p_x p_y : ℝ,
      radarSubst p_x p_y ≠ (0, 0) ∧
      0 < Real.sqrt ((radarSubst p_x p_y).1 * (radarSubst p_x p_y).1 +
        (radarSubst p_x p_y).2 * (radarSubst p_x p_y).2)) := by
  have heps : (0 : ℝ) < dblEpsilon := by norm_num [dblEpsilon]
  refine ⟨?_, heps, ?_⟩
  · intro p_x p_y hx hy
    simp [radarSubst, hx, hy]
  · intro p_x p_y
    by_cases hc : |p_x| < dblEpsilon ∧ |p_y| < dblEpsilon
    · rw [radarSubst, if_pos hc]
      refine ⟨by simp [Prod.ext_iff]; intro h; exact absurd h (ne_of_gt heps), ?_⟩
      apply Real.sqrt_pos.mpr
      nlinarith [heps]
    · rw [radarSubst, if_neg hc]
      have hne : ¬(p_x = 0 ∧ p_y = 0) := by
        rintro ⟨rfl, rfl⟩
        exact hc ⟨by simpa using heps, by simpa using heps⟩
      refine ⟨by simpa [Prod.ext_iff] using hne, ?_⟩
      apply Real.sqrt_pos.mpr
      rcases not_and_or.mp hne with h | h
      · nlinarith [mul_self_pos.mpr h, mul_self_nonneg p_y]
      · nlinarith [mul_self_pos.mpr h, mul_self_nonneg p_x]

/-- Witness for C8: the substitution fires at the exact origin. -/
theorem c8_radar_epsilon_guard_witness :
    radarSubst 0 0 = (dblEpsilon, dblEpsilon) :=
  c8_radar_epsilon_guard.1 0 0 (by norm_num [dblEpsilon]) (by norm_num [dblEpsilon])

/-- C10 (counterexample to the final clause): with the laser toggle off, an
Uninitialized filter fed a laser measurement keeps its state and covariance and
records the timestamp; but the next accepted measurement takes the bootstrap
branch, so no elapsed time is computed from the ignored measurement's
timestamp at all, and the elapsed time first computed after that uses the
bootstrap measurement's own timestamp. -/
theorem c10_counterexample :
    (ProcessMeasurement uNoLaser0 mIgn).inited_ = false ∧
    (ProcessMeasurement uNoLaser0 mIgn).x_ = uNoLaser0.x_ ∧
    (ProcessMeasurement uNoLaser0 mIgn).P_ = uNoLaser0.P_ ∧
    (ProcessMeasurement uNoLaser0 mIgn).time_us_ = 1000000 ∧
    nextDt (ProcessMeasurement uNoLaser0 mIgn) mAcc = none ∧
    (ProcessMeasurement (ProcessMeasurement uNoLaser0 mIgn) mAcc).time_us_ = 2000000 ∧
    nextDt (ProcessMeasurement (ProcessMeasurement uNoLaser0 mIgn) mAcc) mAcc2 = some 1 := by
  have h1 : ProcessMeasurement uNoLaser0 mIgn = { uNoLaser0 with time_us_ := mIgn.timestamp_ } :=
    boot_skip uNoLaser0 mIgn rfl (by simp [mIgn]) (by simp [uNoLaser0, UKF.ctor])
  have h2 : ProcessMeasurement { uNoLaser0 with time_us_ := mIgn.timestamp_ } mAcc =
      { { uNoLaser0 with time_us_ := mIgn.timestamp_ } with
        x_ := ![mAcc.raw_measurements_ 0 * Real.cos (mAcc.raw_measurements_ 1),
                mAcc.raw_measurements_ 0 * Real.sin (mAcc.raw_measurements_ 1),
                mAcc.raw_measurements_ 2, 0, 0]
        inited_ := true
        time_us_ := mAcc.timestamp_ } :=
    boot_radar _ mAcc rfl rfl rfl
  rw [h1, h2]
  refine ⟨rfl, rfl, rfl, rfl, rfl, rfl, ?_⟩
  simp [nextDt, mAcc2, mAcc]

/-- C10 (amended): a disabled or unrecognized measurement at Uninitialized
leaves everything but the stored timestamp unchanged and overwrites the
timestamp; this overwrite never feeds an elapsed-time computation, because the
filter is still Uninitialized afterwards and the uninitialized branch computes
no elapsed time. -/
theorem c10_uninit_skip :
    ∀ (u : UKF) (m : MeasurementPackage), u.inited_ = false →
      ¬(u.use_radar_ = true ∧ m.sensor_type_ = SensorType.RADAR) →
      ¬(u.use_laser_ = true ∧ m.sensor_type_ = SensorType.LASER) →
      ProcessMeasurement u m = { u with time_us_ := m.timestamp_ } ∧
      ∀ m2 : MeasurementPackage, nextDt (ProcessMeasurement u m) m2 = none := by
  intro u m h1 h2 h3
  refine ⟨boot_skip u m h1 h2 h3, ?_⟩
  intro m2
  rw [boot_skip u m h1 h2 h3]
  simp [nextDt, h1]

/-- Witness for C10 (amended). -/
theorem c10_uninit_skip_witness :
    ProcessMeasurement uNoLaser0 mIgn = { uNoLaser0 with time_us_ := mIgn.timestamp_ } ∧
    nextDt (ProcessMeasurement uNoLaser0 mIgn) mAcc = none := by
  have h := c10_uninit_skip uNoLaser0 mIgn rfl (by simp [mIgn]) (by simp [uNoLaser0, UKF.ctor])
  exact ⟨h.1, h.2 mAcc⟩

/-- C1 (amended): in the Ready state a measurement of a disabled sensor type
still runs the prediction step — the returned filter is exactly the prediction
of the time-updated filter, so state and covariance change in general — but no
measurement update runs and both NIS members keep their previous values. -/
theorem c1_disabled_still_predicts :
    ∀ (u : UKF) (m : MeasurementPackage), u.inited_ = true →
      ¬(u.use_radar_ = true ∧ m.sensor_type_ = SensorType.RADAR) →
      ¬(u.use_laser_ = true ∧ m.sensor_type_ = SensorType.LASER) →
      ProcessMeasurement u m =
        Prediction { u with time_us_ := m.timestamp_ }
          (((m.timestamp_ - u.time_us_ : ℤ) : ℝ) / 1000000) ∧
      (ProcessMeasurement u m).NIS_laser_ = u.NIS_laser_ ∧
      (ProcessMeasurement u m).NIS_radar_ = u.NIS_radar_ := by
  intro u m h1 h2 h3
  have h := ready_skip u m h1 h2 h3
  refine ⟨h, ?_, ?_⟩ <;> rw [h] <;> rfl

/-- Witness for C1 (amended): the Ready filter with the laser disabled, fed a
laser measurement. -/
theorem c1_disabled_still_predicts_witness :
    ProcessMeasurement uNoLaser mD =
      Prediction { uNoLaser with time_us_ := mD.timestamp_ }
        (((mD.timestamp_ - uNoLaser.time_us_ : ℤ) : ℝ) / 1000000) ∧
    (ProcessMeasurement uNoLaser mD).NIS_laser_ = uNoLaser.NIS_laser_ ∧
    (ProcessMeasurement uNoLaser mD).NIS_radar_ = uNoLaser.NIS_radar_ :=
  c1_disabled_still_predicts uNoLaser mD rfl (by simp [mD]) (by simp [uNoLaser, UKF.ctor])

/-! ## Cholesky factor of a diagonal matrix -/

lemma cholAux_offdiag (A : Fin 7 → Fin 7 → ℝ) (hA : ∀ i j : Fin 7, i ≠ j → A i j = 0) :
    ∀ (f i j : ℕ), i ≠ j → cholAux A f i j = 0 := by
  intro f
  induction f with
  | zero => intro i j _; rfl
  | succ f ih =>
    intro i j hij
    rw [cholAux]
    by_cases hi : i < 7
    · by_cases hj : j < 7
      · rw [dif_pos hi, dif_pos hj]
        by_cases hlt : i < j
        · rw [if_pos hlt]
        · rw [if_neg hlt, if_neg hij]
          have hAij : A ⟨i, hi⟩ ⟨j, hj⟩ = 0 := hA _ _ (by simpa [Fin.ext_iff] using hij)
          have hsum : ∀ k ∈ Finset.range j, cholAux A f i k * cholAux A f j k = 0 := by
            intro k hk
            have hk' : k < j := Finset.mem_range.mp hk
            rw [ih i k (by omega), zero_mul]
          rw [Finset.sum_congr rfl hsum, Finset.sum_const_zero, hAij]
          simp
      · rw [dif_pos hi, dif_neg hj]
    · rw [dif_neg hi]

lemma cholAux_diag (A : Fin 7 → Fin 7 → ℝ) (hA : ∀ i j : Fin 7, i ≠ j → A i j = 0)
    (f j : ℕ) (hj : j < 7) :
    cholAux A (f + 1) j j = Real.sqrt (A ⟨j, hj⟩ ⟨j, hj⟩) := by
  rw [cholAux, dif_pos hj, dif_pos hj, if_neg (lt_irrefl j), if_pos rfl]
  have hsum : ∀ k ∈ Finset.range j, cholAux A f j k ^ 2 = 0 := by
    intro k hk
    have hk' : k < j := Finset.mem_range.mp hk
    rw [cholAux_offdiag A hA f j k (by omega)]
    ring
  rw [Finset.sum_congr rfl hsum, Finset.sum_const_zero, sub_zero]

/-- On an input whose off-diagonal entries vanish, the computed Cholesky factor
is the diagonal matrix of square roots of the diagonal entries. -/
lemma cholOf_diagonal (A : Matrix (Fin 7) (Fin 7) ℝ) (hA : ∀ i j : Fin 7, i ≠ j → A i j = 0)
    (i k : Fin 7) : cholOf A i k = if i = k then Real.sqrt (A i i) else 0 := by
  by_cases h : i = k
  · subst h
    rw [if_pos rfl]
    show cholAux (fun a b => A a b) 15 i.val i.val = _
    rw [show (15 : ℕ) = 14 + 1 from rfl, cholAux_diag (fun a b => A a b) hA 14 i.val i.isLt]
  · rw [if_neg h]
    exact cholAux_offdiag (fun a b => A a b) hA 15 i.val k.val (by simpa [Fin.ext_iff] using h)

lemma P_aug_offdiag (u : UKF) (hP : ∀ i j : Fin 5, i ≠ j → u.P_ i j = 0) :
    ∀ i j : Fin 7, i ≠ j → P_augOf u i j = 0 := by
  intro i j hij
  by_cases hi : i.val < 5
  · by_cases hj : j.val < 5
    · have : (⟨i.val, hi⟩ : Fin 5) ≠ ⟨j.val, hj⟩ := by
        simpa [Fin.ext_iff] using (by simpa [Fin.ext_iff] using hij : i.val ≠ j.val)
      simp [P_augOf, hi, hj, hP _ _ this]
    · simp [P_augOf, hi, hj]
  · simp [P_augOf, hi, hij]

/-- C4 (evaluated at a failing input): with `P_` set to minus the identity the
augmented covariance is not positive definite — the quadratic form at the
first basis vector is minus one — yet `AugmentedSigmaPoints` performs no check
and still returns a full sigma-point matrix; in the real-valued model the
first spread column degenerates to the mean (the square root of the negative
pivot is junk — in IEEE arithmetic it is NaN and the whole column is NaN), and
no error reaches the caller by any channel. -/
theorem c4_no_fault_surfaced :
    ((fun i : Fin 7 => if i = 0 then (1 : ℝ) else 0) ⬝ᵥ
        (P_augOf uBadP).mulVec (fun i : Fin 7 => if i = 0 then (1 : ℝ) else 0) = -1) ∧
    (∀ r, AugmentedSigmaPoints uBadP r 1 = x_augOf uBadP r) := by
  have hval : P_augOf uBadP 0 0 = -1 := by
    simp [P_augOf, uBadP, Matrix.neg_apply, Matrix.one_apply]
  constructor
  · simp [dotProduct, Matrix.mulVec, Fin.sum_univ_succ, Fin.succ_ne_zero, hval]
  · intro r
    have hoff : ∀ i j : Fin 7, i ≠ j → P_augOf uBadP i j = 0 := by
      refine P_aug_offdiag uBadP fun i j hij => ?_
      show (-1 : Matrix (Fin 5) (Fin 5) ℝ) i j = 0
      simp [Matrix.neg_apply, Matrix.one_apply_ne hij]
    have hL0 : cholOf (P_augOf uBadP) r 0 = 0 := by
      rw [cholOf_diagonal _ hoff]
      by_cases hr : r = 0
      · rw [if_pos hr, hr, show P_augOf uBadP 0 0 = -1 from hval]
        exact Real.sqrt_eq_zero'.mpr (by norm_num)
      · rw [if_neg hr]
    simp [AugmentedSigmaPoints, hL0]

lemma P_aug_ctor_psd : (P_augOf UKF.ctor).PosSemidef := by
  have hd : P_augOf UKF.ctor =
      Matrix.diagonal ![1, 1, 1, 1, 1, std_a_ * std_a_, std_yawdd_ * std_yawdd_] := by
    have v0 : ((0 : Fin 7)).val = 0 := rfl
    have v1 : ((1 : Fin 7)).val = 1 := rfl
    have v2 : ((2 : Fin 7)).val = 2 := rfl
    have v3 : ((3 : Fin 7)).val = 3 := rfl
    have v4 : ((4 : Fin 7)).val = 4 := rfl
    have v5 : ((5 : Fin 7)).val = 5 := rfl
    have v6 : ((6 : Fin 7)).val = 6 := rfl
    have e5 : (![(1 : ℝ), 1, 1, 1, 1, std_a_ * std_a_, std_yawdd_ * std_yawdd_]) 5 =
        std_a_ * std_a_ := rfl
    have e6 : (![(1 : ℝ), 1, 1, 1, 1, std_a_ * std_a_, std_yawdd_ * std_yawdd_]) 6 =
        std_yawdd_ * std_yawdd_ := rfl
    ext i j
    fin_cases i <;> fin_cases j <;>
      simp [P_augOf, Matrix.diagonal, Matrix.one_apply, UKF.ctor, Fin.ext_iff,
        v0, v1, v2, v3, v4, v5, v6, e5, e6]
  rw [hd]
  refine Matrix.PosSemidef.diagonal ?_
  intro i
  fin_cases i <;> (norm_num [std_a_, std_yawdd_]; try positivity)

lemma augSig_col_mid (u : UKF) (r : Fin 7) (c : Fin 15) (h0 : c.val ≠ 0) (h7 : c.val ≤ 7) :
    AugmentedSigmaPoints u r c =
      x_augOf u r + Real.sqrt (lambda_ + (n_aug_ : ℝ)) *
        cholOf (P_augOf u) r ⟨c.val - 1, by omega⟩ := by
  show dite _ _ _ = _
  rw [dif_neg h0, dif_pos h7]

lemma augSig_col_high (u : UKF) (r : Fin 7) (c : Fin 15) (h7 : ¬ c.val ≤ 7) :
    AugmentedSigmaPoints u r c =
      x_augOf u r - Real.sqrt (lambda_ + (n_aug_ : ℝ)) *
        cholOf (P_augOf u) r ⟨c.val - 8, by have := c.isLt; omega⟩ := by
  show dite _ _ _ = _
  rw [dif_neg (by omega : ¬ c.val = 0), dif_neg h7]

/-- C6: For every filter state, if the augmented covariance is PSD then the
generated 15-column sigma-point set has column 0 exactly equal to the
augmented mean, columns 1..7 equal to mean plus `sqrt(lambda_+n_aug_)` times
the corresponding column of the lower Cholesky factor, and columns 8..14 equal
to mean minus the same offset. -/
theorem c6_sigma_point_layout :
    ∀ (u : UKF), (P_augOf u).PosSemidef →
      (∀ r, AugmentedSigmaPoints u r 0 = x_augOf u r) ∧
      (∀ (i : Fin 7) (r : Fin 7),
        AugmentedSigmaPoints u r ⟨i.val + 1, by have := i.isLt; omega⟩ =
          x_augOf u r + Real.sqrt (lambda_ + (n_aug_ : ℝ)) * cholOf (P_augOf u) r i) ∧
      (∀ (i : Fin 7) (r : Fin 7),
        AugmentedSigmaPoints u r ⟨i.val + 8, by have := i.isLt; omega⟩ =
          x_augOf u r - Real.sqrt (lambda_ + (n_aug_ : ℝ)) * cholOf (P_augOf u) r i) := by
  intro u _
  refine ⟨fun r => rfl, ?_, ?_⟩
  · intro i r
    rw [augSig_col_mid u r ⟨i.val + 1, by have := i.isLt; omega⟩
      (Nat.succ_ne_zero i.val) (Nat.succ_le_of_lt i.isLt)]
    simp [Fin.eta]
  · intro i r
    rw [augSig_col_high u r ⟨i.val + 8, by have := i.isLt; omega⟩
      ((by omega : ¬(i.val + 8 ≤ 7)))]
    simp [Fin.eta]
/-- Witness for C6: the freshly constructed filter, whose augmented covariance
is PSD, at spread column 1 and mirror column 8. -/
theorem c6_sigma_point_layout_witness :
    AugmentedSigmaPoints UKF.ctor 0 ⟨1, by omega⟩ =
      x_augOf UKF.ctor 0 +
        Real.sqrt (lambda_ + (n_aug_ : ℝ)) * cholOf (P_augOf UKF.ctor) 0 0 ∧
    AugmentedSigmaPoints UKF.ctor 0 ⟨8, by omega⟩ =
      x_augOf UKF.ctor 0 -
        Real.sqrt (lambda_ + (n_aug_ : ℝ)) * cholOf (P_augOf UKF.ctor) 0 0 :=
  ⟨(c6_sigma_point_layout UKF.ctor P_aug_ctor_psd).2.1 0 0,
   (c6_sigma_point_layout UKF.ctor P_aug_ctor_psd).2.2 0 0⟩


/-- C9: For both update paths, whenever the innovation covariance `S` computed
by that update is positive definite (hence invertible), the NIS value written
by the update — innovation transposed times the inverse of `S` times the
innovation — is nonnegative. -/
theorem c9_nis_nonneg :
    ∀ (u : UKF) (m : MeasurementPackage),
      ((lidarS u).PosDef → 0 ≤ (UpdateLidar u m).NIS_laser_) ∧
      ((radarS u).PosDef → 0 ≤ (UpdateRadar u m).NIS_radar_) := by
  intro u m
  constructor
  · intro hS
    have hpsd := (Matrix.PosDef.inv hS).posSemidef
    have h := hpsd.2
      (fun r : Fin 2 =>
        (fun i : Fin 2 => m.raw_measurements_ ⟨i.val, by have := i.isLt; omega⟩) r -
          lidar_zpred u r)
    rwa [show star (fun r : Fin 2 =>
        (fun i : Fin 2 => m.raw_measurements_ ⟨i.val, by have := i.isLt; omega⟩) r -
          lidar_zpred u r) =
      (fun r : Fin 2 =>
        (fun i : Fin 2 => m.raw_measurements_ ⟨i.val, by have := i.isLt; omega⟩) r -
          lidar_zpred u r) from funext fun r => star_trivial _] at h
  · intro hS
    have hpsd := (Matrix.PosDef.inv hS).posSemidef
    have h := hpsd.2
      (Function.update (fun r : Fin 3 => m.raw_measurements_ r - radar_zpred u r) 1
        (NormalizeAngle ((fun r : Fin 3 => m.raw_measurements_ r - radar_zpred u r) 1)))
    rwa [show star (Function.update
          (fun r : Fin 3 => m.raw_measurements_ r - radar_zpred u r) 1
          (NormalizeAngle ((fun r : Fin 3 => m.raw_measurements_ r - radar_zpred u r) 1))) =
        Function.update (fun r : Fin 3 => m.raw_measurements_ r - radar_zpred u r) 1
          (NormalizeAngle ((fun r : Fin 3 => m.raw_measurements_ r - radar_zpred u r) 1))
      from funext fun r => star_trivial _] at h


lemma lidar_zdiff_uReadyW (i : Fin 15) (r : Fin 2) : lidar_zdiff uReadyW i r = 0 := by
  have hz : ∀ c, lidarZsig uReadyW r c = 0 := fun c => rfl
  simp [lidar_zdiff, lidar_zpred, hz]

lemma lidarS_uReadyW : lidarS uReadyW = R_lidar_ := by
  unfold lidarS
  have hzero : ∀ i ∈ Finset.univ, uReadyW.weights_ i •
      Matrix.vecMulVec (lidar_zdiff uReadyW i) (lidar_zdiff uReadyW i) =
        (0 : Matrix (Fin 2) (Fin 2) ℝ) := by
    intro i _
    have hv : Matrix.vecMulVec (lidar_zdiff uReadyW i) (lidar_zdiff uReadyW i) =
        (0 : Matrix (Fin 2) (Fin 2) ℝ) := by
      ext a b
      simp [Matrix.vecMulVec_apply, lidar_zdiff_uReadyW]
    rw [hv, smul_zero]
  rw [Finset.sum_congr rfl hzero, Finset.sum_const_zero, zero_add]

lemma radarZsig_uReadyW (r : Fin 3) (i : Fin 15) :
    radarZsig uReadyW r i = ![0, atan2 dblEpsilon dblEpsilon, 0] r := by
  have hsub : radarSubst 0 0 = (dblEpsilon, dblEpsilon) := by
    rw [radarSubst, if_pos (by norm_num [dblEpsilon])]
  have hx : uReadyW.Xsig_pred_ = fun _ _ => (0 : ℝ) := rfl
  show (![Real.sqrt (uReadyW.Xsig_pred_ 0 i * uReadyW.Xsig_pred_ 0 i +
            uReadyW.Xsig_pred_ 1 i * uReadyW.Xsig_pred_ 1 i),
          atan2 (radarSubst (uReadyW.Xsig_pred_ 0 i) (uReadyW.Xsig_pred_ 1 i)).2
            (radarSubst (uReadyW.Xsig_pred_ 0 i) (uReadyW.Xsig_pred_ 1 i)).1,
          ((radarSubst (uReadyW.Xsig_pred_ 0 i) (uReadyW.Xsig_pred_ 1 i)).1 *
              (Real.cos (uReadyW.Xsig_pred_ 3 i) * uReadyW.Xsig_pred_ 2 i) +
            (radarSubst (uReadyW.Xsig_pred_ 0 i) (uReadyW.Xsig_pred_ 1 i)).2 *
              (Real.sin (uReadyW.Xsig_pred_ 3 i) * uReadyW.Xsig_pred_ 2 i)) /
            Real.sqrt
              ((radarSubst (uReadyW.Xsig_pred_ 0 i) (uReadyW.Xsig_pred_ 1 i)).1 *
                  (radarSubst (uReadyW.Xsig_pred_ 0 i) (uReadyW.Xsig_pred_ 1 i)).1 +
                (radarSubst (uReadyW.Xsig_pred_ 0 i) (uReadyW.Xsig_pred_ 1 i)).2 *
                  (radarSubst (uReadyW.Xsig_pred_ 0 i) (uReadyW.Xsig_pred_ 1 i)).2)] r) = _
  rw [hx]
  fin_cases r
  · simp
  · simp [hsub]
  · simp [hsub]

lemma radar_zpred_uReadyW (r : Fin 3) :
    radar_zpred uReadyW r = ![0, atan2 dblEpsilon dblEpsilon, 0] r := by
  unfold radar_zpred
  rw [Finset.sum_congr rfl fun i _ => by rw [radarZsig_uReadyW r i]]
  rw [← Finset.sum_mul, show uReadyW.weights_ = weightsVec from rfl, weightsVec_sum, one_mul]

lemma radar_zdiff_uReadyW (i : Fin 15) (r : Fin 3) : radar_zdiff uReadyW i r = 0 := by
  unfold radar_zdiff
  have hd : (fun r' => radarZsig uReadyW r' i - radar_zpred uReadyW r') =
      fun _ : Fin 3 => (0 : ℝ) := by
    funext r'
    rw [radarZsig_uReadyW r' i, radar_zpred_uReadyW r']
    ring
  rw [hd, NormalizeAngle_zero]
  simp [Function.update_apply]

lemma radarS_uReadyW : radarS uReadyW = R_radar_ := by
  unfold radarS
  have hzero : ∀ i ∈ Finset.univ, uReadyW.weights_ i •
      Matrix.vecMulVec (radar_zdiff uReadyW i) (radar_zdiff uReadyW i) =
        (0 : Matrix (Fin 3) (Fin 3) ℝ) := by
    intro i _
    have hv : Matrix.vecMulVec (radar_zdiff uReadyW i) (radar_zdiff uReadyW i) =
        (0 : Matrix (Fin 3) (Fin 3) ℝ) := by
      ext a b
      simp [Matrix.vecMulVec_apply, radar_zdiff_uReadyW]
    rw [hv, smul_zero]
  rw [Finset.sum_congr rfl hzero, Finset.sum_const_zero, zero_add]

lemma R_lidar_posDef : R_lidar_.PosDef := by
  have hd : R_lidar_ = Matrix.diagonal ![std_laspx_ * std_laspx_, std_laspy_ * std_laspy_] := by
    ext i j
    fin_cases i <;> fin_cases j <;>
      simp [R_lidar_, Matrix.diagonal, Fin.ext_iff, Matrix.vecHead, Matrix.vecTail]
  rw [hd]
  refine Matrix.PosDef.diagonal ?_
  intro i
  fin_cases i <;> norm_num [std_laspx_, std_laspy_]

lemma R_radar_posDef : R_radar_.PosDef := by
  have hd : R_radar_ = Matrix.diagonal
      ![std_radr_ * std_radr_, std_radphi_ * std_radphi_, std_radrd_ * std_radrd_] := by
    ext i j
    fin_cases i <;> fin_cases j <;>
      simp [R_radar_, Matrix.diagonal, Fin.ext_iff, Matrix.vecHead, Matrix.vecTail]
  rw [hd]
  refine Matrix.PosDef.diagonal ?_
  intro i
  fin_cases i <;> norm_num [std_radr_, std_radphi_, std_radrd_]

/-- Witness for C9: a Ready filter with zero predicted sigma points, for which
both innovation covariances reduce to the (positive definite) sensor noise
matrices. -/
theorem c9_nis_nonneg_witness :
    0 ≤ (UpdateLidar uReadyW mW).NIS_laser_ ∧ 0 ≤ (UpdateRadar uReadyW mW).NIS_radar_ :=
  ⟨(c9_nis_nonneg uReadyW mW).1 (by rw [lidarS_uReadyW]; exact R_lidar_posDef),
   (c9_nis_nonneg uReadyW mW).2 (by rw [radarS_uReadyW]; exact R_radar_posDef)⟩


lemma cholOf_P_aug_one (u : UKF) (hP : u.P_ = 1) (r k : Fin 7) :
    cholOf (P_augOf u) r k =
      if r = k then
        (if k.val < 5 then 1 else if k.val = 5 then 1 / 4 else Real.pi / 5)
      else 0 := by
  have hoff : ∀ i j : Fin 7, i ≠ j → P_augOf u i j = 0 := by
    refine P_aug_offdiag u fun i j hij => ?_
    rw [hP]
    exact Matrix.one_apply_ne hij
  rw [cholOf_diagonal _ hoff]
  by_cases hrk : r = k
  · subst hrk
    rw [if_pos rfl, if_pos rfl]
    by_cases h5 : r.val < 5
    · rw [if_pos h5]
      have hv : P_augOf u r r = 1 := by
        simp [P_augOf, h5, hP, Matrix.one_apply]
      rw [hv, Real.sqrt_one]
    · rw [if_neg h5]
      by_cases h5' : r.val = 5
      · rw [if_pos h5']
        have hv : P_augOf u r r = std_a_ * std_a_ := by
          simp [P_augOf, h5, h5']
        rw [hv, show std_a_ * std_a_ = (1 / 4 : ℝ) * (1 / 4) by norm_num [std_a_],
          Real.sqrt_mul_self (by norm_num)]
      · rw [if_neg h5']
        have hv : P_augOf u r r = std_yawdd_ * std_yawdd_ := by
          simp [P_augOf, h5, h5']
        rw [hv, Real.sqrt_mul_self (by unfold std_yawdd_; positivity),
          show std_yawdd_ = Real.pi / 5 by unfold std_yawdd_; ring]
  · rw [if_neg hrk, if_neg hrk]

lemma ctrv_speed (pt : Fin 7 → ℝ) (dt : ℝ) : ctrvPropagate pt dt 2 = pt 2 + pt 5 * dt := rfl

lemma Xa_row2 (u : UKF) (hx : u.x_ = fun _ => 0) (hP : u.P_ = 1) (c : Fin 15) :
    AugmentedSigmaPoints u 2 c =
      (if c = 3 then Real.sqrt 3 else 0) + (if c = 10 then -Real.sqrt 3 else 0) := by
  have hlam : lambda_ + (n_aug_ : ℝ) = 3 := by norm_num [lambda_, n_aug_]
  fin_cases c <;>
    simp +decide [AugmentedSigmaPoints, x_augOf, hx, hP, cholOf_P_aug_one u hP, hlam]

lemma Xa_row5 (u : UKF) (hx : u.x_ = fun _ => 0) (hP : u.P_ = 1) (c : Fin 15) :
    AugmentedSigmaPoints u 5 c =
      (if c = 6 then Real.sqrt 3 / 4 else 0) + (if c = 13 then -(Real.sqrt 3 / 4) else 0) := by
  have hlam : lambda_ + (n_aug_ : ℝ) = 3 := by norm_num [lambda_, n_aug_]
  fin_cases c <;>
    simp +decide [AugmentedSigmaPoints, x_augOf, hx, hP, cholOf_P_aug_one u hP, hlam] <;>
    ring

lemma Prediction_P_apply (u : UKF) (dt : ℝ) (a b : Fin 5) :
    (Prediction u dt).P_ a b =
      ∑ i : Fin 15,
        weightsVec i *
          (stateDiff (SigmaPointPrediction (AugmentedSigmaPoints u) dt)
              ((SigmaPointPrediction (AugmentedSigmaPoints u) dt).mulVec weightsVec) i a *
            stateDiff (SigmaPointPrediction (AugmentedSigmaPoints u) dt)
              ((SigmaPointPrediction (AugmentedSigmaPoints u) dt).mulVec weightsVec) i b) := by
  show (∑ i : Fin 15, weightsVec i • Matrix.vecMulVec
      (stateDiff (SigmaPointPrediction (AugmentedSigmaPoints u) dt)
        ((SigmaPointPrediction (AugmentedSigmaPoints u) dt).mulVec weightsVec) i)
      (stateDiff (SigmaPointPrediction (AugmentedSigmaPoints u) dt)
        ((SigmaPointPrediction (AugmentedSigmaPoints u) dt).mulVec weightsVec) i)) a b = _
  rw [Matrix.sum_apply]
  refine Finset.sum_congr rfl fun i _ => ?_
  rw [Matrix.smul_apply, Matrix.vecMulVec_apply, smul_eq_mul]


/-- C1 (counterexample): a Ready filter with the laser toggle off, identity
covariance and zero state, fed a laser measurement 4 seconds later, does NOT
keep its covariance: the prediction step still runs and the speed variance
grows to `1 + std_a_^2 * dt^2 = 2`. -/
theorem c1_counterexample :
    (ProcessMeasurement uNoLaser mD).P_ 2 2 = 2 ∧ uNoLaser.P_ 2 2 = 1 := by
  constructor
  · have hready : ProcessMeasurement uNoLaser mD =
        Prediction { uNoLaser with time_us_ := mD.timestamp_ }
          (((mD.timestamp_ - uNoLaser.time_us_ : ℤ) : ℝ) / 1000000) :=
      ready_skip uNoLaser mD rfl (by simp [mD]) (by simp [uNoLaser, UKF.ctor])
    have hdt : ((mD.timestamp_ - uNoLaser.time_us_ : ℤ) : ℝ) / 1000000 = 4 := by
      norm_num [mD, uNoLaser, UKF.ctor]
    rw [hready, hdt]
    set u1 : UKF := { uNoLaser with time_us_ := mD.timestamp_ } with hu1
    have hx1 : u1.x_ = fun _ => 0 := rfl
    have hP1 : u1.P_ = 1 := rfl
    have hXp2 : ∀ c : Fin 15, SigmaPointPrediction (AugmentedSigmaPoints u1) 4 2 c =
        (if c = 3 then Real.sqrt 3 else 0) + (if c = 10 then -Real.sqrt 3 else 0) +
          ((if c = 6 then Real.sqrt 3 / 4 else 0) +
            (if c = 13 then -(Real.sqrt 3 / 4) else 0)) * 4 := by
      intro c
      show ctrvPropagate (fun k => AugmentedSigmaPoints u1 k c) 4 2 = _
      rw [ctrv_speed]
      show AugmentedSigmaPoints u1 2 c + AugmentedSigmaPoints u1 5 c * 4 = _
      rw [Xa_row2 u1 hx1 hP1 c, Xa_row5 u1 hx1 hP1 c]
    have hmean2 : (SigmaPointPrediction (AugmentedSigmaPoints u1) 4).mulVec weightsVec 2 = 0 := by
      show ∑ j : Fin 15,
          SigmaPointPrediction (AugmentedSigmaPoints u1) 4 2 j * weightsVec j = 0
      rw [Finset.sum_congr rfl fun j _ => by rw [hXp2 j]]
      simp +decide [Fin.sum_univ_succ, weightsVec, Function.update_apply, Fin.succ_ne_zero,
        lambda_, n_aug_]
    rw [Prediction_P_apply]
    have hsd : ∀ i : Fin 15,
        stateDiff (SigmaPointPrediction (AugmentedSigmaPoints u1) 4)
          ((SigmaPointPrediction (AugmentedSigmaPoints u1) 4).mulVec weightsVec) i 2 =
          SigmaPointPrediction (AugmentedSigmaPoints u1) 4 2 i := by
      intro i
      show Function.update
        (fun k => SigmaPointPrediction (AugmentedSigmaPoints u1) 4 k i -
          (SigmaPointPrediction (AugmentedSigmaPoints u1) 4).mulVec weightsVec k) 3 _ 2 = _
      rw [Function.update_noteq (by decide : (2 : Fin 5) ≠ 3)]
      show SigmaPointPrediction (AugmentedSigmaPoints u1) 4 2 i -
        (SigmaPointPrediction (AugmentedSigmaPoints u1) 4).mulVec weightsVec 2 = _
      rw [hmean2, sub_zero]
    rw [Finset.sum_congr rfl fun i _ => by rw [hsd i, hXp2 i]]
    have hs3 : Real.sqrt 3 * Real.sqrt 3 = 3 := Real.mul_self_sqrt (by norm_num)
    simp +decide [Fin.sum_univ_succ, weightsVec, Function.update_apply, Fin.succ_ne_zero,
      lambda_, n_aug_]
    nlinarith [hs3]
  · show (1 : Matrix (Fin 5) (Fin 5) ℝ) 2 2 = 1
    simp [Matrix.one_apply]

end
